import Mathlib

/- Verification of the movie-submission bot (src/telegram_bot.py) against its
   specification. The module is shallowly embedded: Python strings become
   lists of characters, the `pending_movies` dict becomes an association
   list, and the two message handlers plus the handler dispatch of the
   Telegram application become pure functions from an environment (chat
   allow-list, clock, oracles for the fallible network steps) and a store to
   a step result recording the new store, the externally visible effects
   (replies, blob uploads, catalog writes) and whether an uncaught exception
   escaped the handler. -/

abbrev Str := List Char

/-- Python str.lower restricted to the character ranges the module's labels
use: ASCII capitals and the Latin-1 accented capitals (À..Þ except ×). -/
def pyLower (c : Char) : Char :=
  let n := c.toNat
  if 65 ≤ n ∧ n ≤ 90 then Char.ofNat (n + 32)
  else if 192 ≤ n ∧ n ≤ 222 ∧ n ≠ 215 then Char.ofNat (n + 32)
  else c

def pyLowerL (s : Str) : Str := s.map pyLower

/-- Whitespace stripped by Python str.strip. -/
def isPySpace (c : Char) : Bool :=
  c = ' ' ∨ c = '\t' ∨ c = '\n' ∨ c = '\r' ∨ c = Char.ofNat 11 ∨ c = Char.ofNat 12

/-- Python str.strip(): whitespace removed from both ends. -/
def pyStrip (s : Str) : Str :=
  ((s.dropWhile isPySpace).reverse.dropWhile isPySpace).reverse

/-- Boolean list-prefix test (substring machinery for Python's `in`). -/
def isPrefixOfL : List Char → List Char → Bool
  | [], _ => true
  | _ :: _, [] => false
  | a :: as, b :: bs => if a = b then isPrefixOfL as bs else false

/-- Python's `pat in s` substring test. -/
def containsSub (pat : List Char) : List Char → Bool
  | [] => decide (pat = [])
  | c :: cs => isPrefixOfL pat (c :: cs) || containsSub pat cs

/-- The remainder of the input after the first occurrence of `pat`
(the second component of Python's `s.split(pat, 1)` when `pat` occurs). -/
def afterFirst (pat : List Char) : List Char → List Char
  | [] => []
  | c :: cs =>
    if isPrefixOfL pat (c :: cs) then (c :: cs).drop pat.length
    else afterFirst pat cs

/-- Python str.splitlines worker: accumulates the current line reversed;
a final line break produces no trailing empty line. -/
def splitlinesAux (cur : List Char) : List Char → List (List Char)
  | [] => [cur.reverse]
  | '\r' :: '\n' :: [] => [cur.reverse]
  | '\r' :: '\n' :: c :: rest => cur.reverse :: splitlinesAux [] (c :: rest)
  | '\r' :: [] => [cur.reverse]
  | '\n' :: [] => [cur.reverse]
  | '\r' :: c :: rest => cur.reverse :: splitlinesAux [] (c :: rest)
  | '\n' :: c :: rest => cur.reverse :: splitlinesAux [] (c :: rest)
  | c :: rest => splitlinesAux (c :: cur) rest

/-- Python str.splitlines (for the line breaks occurring in this module's
inputs: newline, carriage return, and their combination). -/
def splitlines (t : Str) : List Str :=
  match t with
  | [] => []
  | _ :: _ => splitlinesAux [] t

/-- Python `line.split(":", 1)[-1]`: the part after the first colon when one
occurs, the whole line otherwise. -/
def afterColon (l : Str) : Str :=
  if containsSub [':'] l then afterFirst [':'] l else l

/-- The inner `get(label)` of parse_metadata: scan the lines for the first
one containing the lowered label in its lowered form, and return that
line's text after the first colon, stripped. -/
def findLine (lpat : Str) : List Str → Option Str
  | [] => none
  | line :: rest =>
    if containsSub lpat (pyLowerL line) then some (pyStrip (afterColon line))
    else findLine lpat rest

def getField (label : Str) (text : Str) : Option Str :=
  findLine (pyLowerL label) (splitlines text)

/-- Python's `a or d` for an optional string `a`: both None and the empty
string are falsy and fall back to the default. -/
def pyOr (a : Option Str) (d : Str) : Str :=
  match a with
  | some s => if s = [] then d else s
  | none => d

structure ParsedMetadata where
  title : Str
  synopsis : Option Str
  director : Option Str
  audio : Option Str
  year : Option Str
  genres : Option Str
deriving DecidableEq

/-- parse_metadata of src/telegram_bot.py: line-scoped label lookup for
title / director / audio / year / genres (the year label is "Lançamento"),
and the synopsis as everything after the first occurrence of "Sinopse:"
(a case-sensitive containment test), stripped. -/
def parse_metadata (text : Str) : ParsedMetadata :=
  { title := pyOr (getField "Título".data text) "Sem título".data
    synopsis :=
      if containsSub "Sinopse:".data text then
        some (pyStrip (afterFirst "Sinopse:".data text))
      else none
    director := getField "Diretor".data text
    audio := getField "Áudio".data text
    year := getField "Lançamento".data text
    genres := getField "Gêneros".data text }

/-- One pending_movies entry: poster file id, parsed metadata, creation
time in seconds. -/
structure PendingEntry where
  posterFileId : Str
  metadata : ParsedMetadata
  createdAt : Nat
deriving DecidableEq

/-- The pending_movies dict, keyed by chat id. -/
abbrev Store := List (Int × PendingEntry)

def dictGet : Store → Int → Option PendingEntry
  | [], _ => none
  | (k2, v) :: rest, k => if k2 = k then some v else dictGet rest k

/-- pending_movies.pop(chat_id, None): drop the entry for the key. -/
def dictErase : Store → Int → Store
  | [], _ => []
  | (k2, v) :: rest, k =>
    if k2 = k then dictErase rest k else (k2, v) :: dictErase rest k

/-- pending_movies[chat_id] = entry: overwrite the key's entry. -/
def dictSet (st : Store) (k : Int) (v : PendingEntry) : Store :=
  (k, v) :: dictErase st k

/-- Number of entries stored under a key. -/
def countKey : Store → Int → Nat
  | [], _ => 0
  | (k2, _) :: rest, k => (if k2 = k then 1 else 0) + countKey rest k

/-- A photo size or video object carried by a Telegram message. -/
structure TgFile where
  fileId : Str
  fileName : Option Str
deriving DecidableEq

/-- A document attachment (generic file with a declared mime type). -/
structure TgDocument where
  fileId : Str
  mimeType : Str
  fileName : Option Str
deriving DecidableEq

/-- The parts of an inbound Telegram message this module inspects. -/
structure Message where
  chatId : Int
  caption : Option Str
  photo : List TgFile
  document : Option TgDocument
  video : Option TgFile
deriving DecidableEq

/-- The environment of one handler run: the configured allowed chat id, the
clock, the storage bucket name, the fresh key produced by movies_ref.push(),
and success oracles for the three fallible external phases (the poster
retrieve-and-upload try block, the video retrieve-and-upload try block, and
the movie_ref.set catalog write). -/
structure Env where
  allowedChatId : Int
  now : Nat
  bucketName : Str
  freshId : Nat
  posterOk : Bool
  videoOk : Bool
  catalogOk : Bool
deriving DecidableEq

/-- The catalog record written by movie_ref.set: the parsed metadata fields
plus posterUrl, videoUrl and createdAt in epoch milliseconds. -/
structure CatalogRecord where
  title : Str
  synopsis : Option Str
  director : Option Str
  audio : Option Str
  year : Option Str
  genres : Option Str
  posterUrl : Str
  videoUrl : Str
  createdAt : Nat
deriving DecidableEq

/-- Externally visible effects of one handler run: replies sent to the
originating chat, storage paths uploaded, and catalog records written. -/
structure Effects where
  replies : List Str := []
  blobUploads : List Str := []
  catalogWrites : List (Nat × CatalogRecord) := []
deriving DecidableEq

/-- Result of one handler run. `raised` records that an exception escaped
the handler uncaught (so the statements after it never executed). -/
structure StepResult where
  store : Store
  fx : Effects
  raised : Bool
deriving DecidableEq

def noFx : Effects := {}

def msgOrdem : Str :=
  "⚠️ Ordem incorreta. Envie: **Capa + Texto** primeiro → **Vídeo**.".data
def msgNotVideo : Str :=
  "⚠️ Mensagem não contém um arquivo de vídeo válido.".data
def msgSaving : Str :=
  "📥 Salvando no Firebase... (Isto pode levar tempo)".data
def msgPosterFail : Str :=
  "❌ Falha crítica ao salvar a capa.".data
def msgVideoFail : Str :=
  "❌ Falha crítica ao salvar o vídeo.".data
def msgSuccess : Str :=
  "✅ Filme salvo no Firebase!".data
def msgCoverReceived : Str :=
  "✅ Capa e Metadados recebidos. Agora envie o **VÍDEO** do filme.".data
def msgIdFail : Str :=
  "⚠️ Falha ao obter o ID da imagem. Tente enviar a imagem diretamente.".data

def hexDigit (n : Nat) : Char :=
  if n < 10 then Char.ofNat (48 + n) else Char.ofNat (55 + n)

/-- UTF-8 bytes of a character (for urllib.parse.quote). -/
def utf8Bytes (c : Char) : List Nat :=
  let n := c.toNat
  if n < 128 then [n]
  else if n < 2048 then [192 + n / 64, 128 + n % 64]
  else if n < 65536 then [224 + n / 4096, 128 + (n / 64) % 64, 128 + n % 64]
  else [240 + n / 262144, 128 + (n / 4096) % 64, 128 + (n / 64) % 64, 128 + n % 64]

def percentEncodeByte (b : Nat) : Str :=
  ['%', hexDigit (b / 16), hexDigit (b % 16)]

/-- Characters urllib.parse.quote never encodes (safe="" in the module). -/
def isQuoteSafe (c : Char) : Bool :=
  c.isAlphanum || c = '_' || c = '.' || c = '-' || c = '~'

/-- urllib.parse.quote(path, safe=""). -/
def pyQuote (s : Str) : Str :=
  (s.map (fun c =>
    if isQuoteSafe c then [c]
    else ((utf8Bytes c).map percentEncodeByte).flatten)).flatten

def natToStr (n : Nat) : Str := (Nat.repr n).data

/-- build_download_url of src/telegram_bot.py. -/
def buildDownloadUrl (bucket path : Str) : Str :=
  "https://firebasestorage.googleapis.com/v0/b/".data ++ bucket ++ "/o/".data
    ++ pyQuote path ++ "?alt=media".data

/-- The video extension chosen by handle_video:
"." + file.file_name.split(".")[-1] when the file name is truthy and has a
dot, ".mp4" otherwise. -/
def afterLastDot (n : Str) : Str :=
  (n.reverse.takeWhile (fun c => decide (c ≠ '.'))).reverse

def videoExt (fname : Option Str) : Str :=
  match fname with
  | some n =>
    if n ≠ [] ∧ containsSub ['.'] n then '.' :: afterLastDot n
    else ".mp4".data
  | none => ".mp4".data

/-- handle_photo of src/telegram_bot.py. The guards run in source order:
the allow-list check, the photo / image-document presence check (which
returns before the caption is ever inspected), the crash on a missing
caption (text.lower() on None — unreachable through the dispatcher, which
only routes captioned messages here), the title-label check, the falsy
file-id check, and finally the unconditional overwrite of the pending
entry plus the confirmation reply. -/
def handlePhoto (env : Env) (st : Store) (msg : Message) : StepResult :=
  if msg.chatId = env.allowedChatId then
    let photo := msg.photo.getLast?
    let documentImage : Option TgDocument :=
      match msg.document with
      | some d => if isPrefixOfL "image".data d.mimeType then some d else none
      | none => none
    if photo = none ∧ documentImage = none then ⟨st, noFx, false⟩
    else
      match msg.caption with
      | none => ⟨st, noFx, true⟩
      | some text =>
        if containsSub "título".data (pyLowerL text) then
          let posterFileId : Option Str :=
            match photo with
            | some p => some p.fileId
            | none =>
              match documentImage with
              | some d => some d.fileId
              | none => none
          match posterFileId with
          | none => ⟨st, { replies := [msgIdFail] }, false⟩
          | some fid =>
            if fid = [] then ⟨st, { replies := [msgIdFail] }, false⟩
            else
              ⟨dictSet st msg.chatId ⟨fid, parse_metadata text, env.now⟩,
                { replies := [msgCoverReceived] }, false⟩
        else ⟨st, noFx, false⟩
  else ⟨st, noFx, false⟩

/-- handle_video of src/telegram_bot.py. Pending entries of this module
always carry metadata, so the `"metadata" not in pending` half of the guard
is subsumed by the existence check. movies_ref.push() is modelled as the
allocation of the fresh record key env.freshId. The poster and video try
blocks either succeed (upload effect recorded) or fail, reply, pop the
entry and return; the movie_ref.set call is not inside a try block, so a
catalog failure escapes the handler: no pop, no further reply. -/
def handleVideo (env : Env) (st : Store) (msg : Message) : StepResult :=
  if msg.chatId = env.allowedChatId then
    match dictGet st msg.chatId with
    | none => ⟨st, { replies := [msgOrdem] }, false⟩
    | some pending =>
      let file : Option (Str × Option Str) :=
        match msg.video with
        | some v => some (v.fileId, v.fileName)
        | none =>
          match msg.document with
          | some d => some (d.fileId, d.fileName)
          | none => none
      let docNotVideo : Bool :=
        match msg.document with
        | some d => !(isPrefixOfL "video".data d.mimeType)
        | none => false
      match file with
      | none => ⟨st, { replies := [msgNotVideo] }, false⟩
      | some (_fid, fname) =>
        if docNotVideo then ⟨st, { replies := [msgNotVideo] }, false⟩
        else
          let movieId := env.freshId
          let pPath := "movies/".data ++ natToStr movieId ++ "/poster.jpg".data
          if env.posterOk then
            let posterUrl := buildDownloadUrl env.bucketName pPath
            let ext := videoExt fname
            let vPath := "movies/".data ++ natToStr movieId ++ "/video".data ++ ext
            if env.videoOk then
              let videoUrl := buildDownloadUrl env.bucketName vPath
              if env.catalogOk then
                let md := pending.metadata
                ⟨dictErase st msg.chatId,
                  { replies := [msgSaving, msgSuccess],
                    blobUploads := [pPath, vPath],
                    catalogWrites := [(movieId,
                      ⟨md.title, md.synopsis, md.director, md.audio, md.year,
                        md.genres, posterUrl, videoUrl, env.now * 1000⟩)] },
                  false⟩
              else
                ⟨st, { replies := [msgSaving], blobUploads := [pPath, vPath] },
                  true⟩
            else
              ⟨dictErase st msg.chatId,
                { replies := [msgSaving, msgVideoFail], blobUploads := [pPath] },
                false⟩
          else
            ⟨dictErase st msg.chatId,
              { replies := [msgSaving, msgPosterFail] }, false⟩
  else ⟨st, noFx, false⟩

/-- filters.Caption: any message carrying a caption. -/
def filterCaption (msg : Message) : Bool := msg.caption.isSome

/-- filters.VIDEO | filters.Document.VIDEO. -/
def filterVideo (msg : Message) : Bool :=
  msg.video.isSome ||
    (match msg.document with
     | some d => isPrefixOfL "video/".data d.mimeType
     | none => false)

/-- The application's dispatch: handlers are registered in one group, the
caption handler first, so the first matching filter consumes the update. -/
def processUpdate (env : Env) (st : Store) (msg : Message) : StepResult :=
  if filterCaption msg then handlePhoto env st msg
  else if filterVideo msg then handleVideo env st msg
  else ⟨st, noFx, false⟩

/- ===== Concrete fixtures used to instantiate the theorems ===== -/

def scenarioACaption : Str :=
  "Título: Dune\nAno: 2021\nGêneros: Ficção\nSinopse: Um herdeiro...".data

def sampleMeta : ParsedMetadata := ⟨"A".data, none, none, none, none, none⟩

def sampleEntry : PendingEntry := ⟨"pid".data, sampleMeta, 0⟩

def envAllOk : Env := ⟨7, 0, "bucket".data, 0, true, true, true⟩

def envPosterFail : Env := ⟨7, 0, "bucket".data, 0, false, true, true⟩

def envCatalogFail : Env := ⟨7, 0, "bucket".data, 0, true, true, false⟩

/-- Same configuration, observed 100000 s (about 27.8 h, past the 24 h TTL
the specification describes) after time zero. -/
def envLate : Env := ⟨7, 100000, "bucket".data, 0, true, true, true⟩

def storeOne : Store := [(7, sampleEntry)]

/-- A plain (uncaptioned) video message from the allowed chat. -/
def videoMsg : Message := ⟨7, none, [], none, some ⟨"vid".data, none⟩⟩

/-- A video message that carries a caption. -/
def captionedVideoMsg : Message :=
  ⟨7, some "qualquer".data, [], none, some ⟨"vid".data, none⟩⟩

def coverCaption : Str := "Título: A\nSinopse: s".data

/-- A captioned photo message (cover plus metadata) from the allowed chat. -/
def coverMsg : Message := ⟨7, some coverCaption, [⟨"p1".data, none⟩], none, none⟩

/- ===== General lemmas about the embedded string and store operations ===== -/

theorem isPrefixOfL_iff (p l : List Char) : isPrefixOfL p l = true ↔ ∃ s, l = p ++ s := by
  induction p generalizing l with
  | nil => simp [isPrefixOfL]
  | cons a as ih =>
    cases l with
    | nil =>
      simp only [isPrefixOfL, List.cons_append]
      constructor
      · intro h; cases h
      · rintro ⟨s, hs⟩; cases hs
    | cons b bs =>
      by_cases hab : a = b
      · subst hab
        simp [isPrefixOfL, ih]
      · simp only [isPrefixOfL, if_neg hab, List.cons_append, List.cons.injEq]
        constructor
        · intro h; cases h
        · rintro ⟨s, hs, _⟩; exact absurd hs.symm hab

theorem containsSub_iff (p t : List Char) :
    containsSub p t = true ↔ ∃ a b, t = a ++ p ++ b := by
  induction t with
  | nil =>
    simp only [containsSub, decide_eq_true_eq]
    constructor
    · rintro rfl; exact ⟨[], [], rfl⟩
    · rintro ⟨a, b, hab⟩
      rcases List.append_eq_nil.mp hab.symm with ⟨h1, h2⟩
      rcases List.append_eq_nil.mp h1 with ⟨_, h3⟩
      exact h3
  | cons c cs ih =>
    simp only [containsSub, Bool.or_eq_true]
    constructor
    · rintro (h | h)
      · obtain ⟨s, hs⟩ := (isPrefixOfL_iff p (c :: cs)).mp h
        exact ⟨[], s, by simpa using hs⟩
      · obtain ⟨a, b, hab⟩ := ih.mp h
        exact ⟨c :: a, b, by simp [hab]⟩
    · rintro ⟨a, b, hab⟩
      cases a with
      | nil =>
        left
        exact (isPrefixOfL_iff p (c :: cs)).mpr ⟨b, by simpa using hab⟩
      | cons a0 as =>
        right
        apply ih.mpr
        simp only [List.cons_append, List.cons.injEq] at hab
        exact ⟨as, b, hab.2⟩

theorem afterFirst_spec (pat : List Char) :
    ∀ t : List Char, containsSub pat t = true →
      ∃ pre, t = pre ++ pat ++ afterFirst pat t ∧
        ∀ a b, t = a ++ pat ++ b → pre.length ≤ a.length := by
  intro t
  induction t with
  | nil =>
    intro h
    have hp : pat = [] := by simpa [containsSub] using h
    subst hp
    exact ⟨[], by simp [afterFirst], by intro a b _; simp⟩
  | cons c cs ih =>
    intro h
    by_cases hpre : isPrefixOfL pat (c :: cs) = true
    · obtain ⟨s, hs⟩ := (isPrefixOfL_iff _ _).mp hpre
      refine ⟨[], ?_, ?_⟩
      · simp only [afterFirst, if_pos hpre]
        rw [hs, List.drop_left]
        simp
      · intro a b _; simp
    · have hcs : containsSub pat cs = true := by
        have h2 := h
        simp only [containsSub, Bool.or_eq_true] at h2
        rcases h2 with h2 | h2
        · exact absurd h2 hpre
        · exact h2
      obtain ⟨pre, heq, hmin⟩ := ih hcs
      refine ⟨c :: pre, ?_, ?_⟩
      · simp only [afterFirst, if_neg hpre, List.cons_append, List.cons.injEq,
          true_and]
        exact heq
      · intro a b hab
        cases a with
        | nil =>
          exfalso
          apply hpre
          exact (isPrefixOfL_iff _ _).mpr ⟨b, by simpa using hab⟩
        | cons a0 as =>
          simp only [List.cons_append, List.cons.injEq] at hab
          have hle := hmin as b hab.2
          simpa [Nat.succ_le_succ_iff] using hle

theorem splitlinesAux_mem (cur l : List Char) (line : List Char)
    (h : line ∈ splitlinesAux cur l) : ∃ a b, cur.reverse ++ l = a ++ line ++ b := by
  induction cur, l using splitlinesAux.induct generalizing line with
  | case1 cur =>
    simp only [splitlinesAux, List.mem_singleton] at h
    exact ⟨[], [], by simp [h]⟩
  | case2 cur =>
    simp only [splitlinesAux, List.mem_singleton] at h
    exact ⟨[], ['\r', '\n'], by simp [h]⟩
  | case3 cur c rest ih =>
    simp only [splitlinesAux, List.mem_cons] at h
    rcases h with h | h
    · exact ⟨[], '\r' :: '\n' :: c :: rest, by simp [h]⟩
    · obtain ⟨a, b, hab⟩ := ih _ h
      simp only [List.reverse_nil, List.nil_append] at hab
      exact ⟨cur.reverse ++ ['\r', '\n'] ++ a, b, by simp [hab]⟩
  | case4 cur =>
    simp only [splitlinesAux, List.mem_singleton] at h
    exact ⟨[], ['\r'], by simp [h]⟩
  | case5 cur =>
    simp only [splitlinesAux, List.mem_singleton] at h
    exact ⟨[], ['\n'], by simp [h]⟩
  | case6 cur c rest h1 h2 ih =>
    rw [splitlinesAux.eq_6 cur c rest h1 h2] at h
    simp only [List.mem_cons] at h
    rcases h with h | h
    · exact ⟨[], '\r' :: c :: rest, by simp [h]⟩
    · obtain ⟨a, b, hab⟩ := ih _ h
      simp only [List.reverse_nil, List.nil_append] at hab
      exact ⟨cur.reverse ++ ['\r'] ++ a, b, by simp [hab]⟩
  | case7 cur c rest ih =>
    simp only [splitlinesAux, List.mem_cons] at h
    rcases h with h | h
    · exact ⟨[], '\n' :: c :: rest, by simp [h]⟩
    · obtain ⟨a, b, hab⟩ := ih _ h
      simp only [List.reverse_nil, List.nil_append] at hab
      exact ⟨cur.reverse ++ ['\n'] ++ a, b, by simp [hab]⟩
  | case8 cur c rest h1 h2 h3 h4 h5 h6 ih =>
    rw [splitlinesAux.eq_8 cur c rest h1 h2 h3 h4 h5 h6] at h
    obtain ⟨a, b, hab⟩ := ih _ h
    refine ⟨a, b, ?_⟩
    rw [← hab]
    simp

theorem mem_splitlines (t line : Str) (h : line ∈ splitlines t) :
    ∃ a b, t = a ++ line ++ b := by
  cases t with
  | nil => simp [splitlines] at h
  | cons c cs =>
    have h2 := splitlinesAux_mem [] (c :: cs) line (by simpa [splitlines] using h)
    simpa using h2

theorem findLine_eq_none (lpat : Str) (lines : List Str)
    (h : ∀ line ∈ lines, containsSub lpat (pyLowerL line) = false) :
    findLine lpat lines = none := by
  induction lines with
  | nil => rfl
  | cons l ls ih =>
    simp only [findLine, h l (by simp)]
    simp only [Bool.false_eq_true, if_false]
    exact ih (fun line hm => h line (by simp [hm]))

theorem getField_eq_none (label text : Str)
    (h : containsSub (pyLowerL label) (pyLowerL text) = false) :
    getField label text = none := by
  apply findLine_eq_none
  intro line hline
  by_contra hc
  have hc2 : containsSub (pyLowerL label) (pyLowerL line) = true := by
    cases hx : containsSub (pyLowerL label) (pyLowerL line) with
    | false => exact absurd hx hc
    | true => rfl
  obtain ⟨a, b, hab⟩ := mem_splitlines _ _ hline
  obtain ⟨a2, b2, hab2⟩ := (containsSub_iff _ _).mp hc2
  have hwhole : containsSub (pyLowerL label) (pyLowerL text) = true := by
    apply (containsSub_iff _ _).mpr
    refine ⟨pyLowerL a ++ a2, b2 ++ pyLowerL b, ?_⟩
    rw [hab]
    simp only [pyLowerL, List.map_append] at hab2 ⊢
    rw [hab2]
    simp [List.append_assoc]
  rw [hwhole] at h
  cases h

theorem buildDownloadUrl_ne_nil (b p : Str) : buildDownloadUrl b p ≠ [] := by
  intro h
  have hm : ('h' : Char) ∈ buildDownloadUrl b p := by
    unfold buildDownloadUrl
    refine List.mem_append_left _ (List.mem_append_left _ (List.mem_append_left _
      (List.mem_append_left _ ?_)))
    decide
  rw [h] at hm
  exact absurd hm (List.not_mem_nil _)

theorem dictGet_dictErase_ne (st : Store) (k k' : Int) (h : k' ≠ k) :
    dictGet (dictErase st k) k' = dictGet st k' := by
  induction st with
  | nil => rfl
  | cons q rest ih =>
    obtain ⟨k2, v⟩ := q
    by_cases h2 : k2 = k
    · have h3 : ¬(k = k') := fun hx => h hx.symm
      simp [dictErase, dictGet, h2, h3, ih]
    · by_cases h3 : k2 = k' <;> simp [dictErase, dictGet, h2, h3, h, ih]

theorem countKey_dictErase (st : Store) (k : Int) :
    countKey (dictErase st k) k = 0 := by
  induction st with
  | nil => rfl
  | cons q rest ih =>
    obtain ⟨k2, v⟩ := q
    by_cases h2 : k2 = k <;> simp [dictErase, countKey, h2, ih]

theorem countKey_dictSet (st : Store) (k : Int) (v : PendingEntry) :
    countKey (dictSet st k v) k = 1 := by
  simp [dictSet, countKey, countKey_dictErase]

theorem dictGet_dictSet_self (st : Store) (k : Int) (v : PendingEntry) :
    dictGet (dictSet st k v) k = some v := by
  simp [dictSet, dictGet]

theorem dictGet_dictSet_ne (st : Store) (k k' : Int) (v : PendingEntry) (h : k' ≠ k) :
    dictGet (dictSet st k v) k' = dictGet st k' := by
  have h3 : ¬(k = k') := fun hx => h hx.symm
  simp only [dictSet, dictGet, if_neg h3]
  exact dictGet_dictErase_ne st k k' h

/- ===== Handler-level lemmas ===== -/

theorem handlePhoto_stores_photo (env : Env) (st : Store) (msg : Message)
    (text : Str) (p : TgFile)
    (hchat : msg.chatId = env.allowedChatId)
    (hcap : msg.caption = some text)
    (htitle : containsSub "título".data (pyLowerL text) = true)
    (hph : msg.photo.getLast? = some p)
    (hfid : p.fileId ≠ []) :
    handlePhoto env st msg =
      ⟨dictSet st msg.chatId ⟨p.fileId, parse_metadata text, env.now⟩,
        { replies := [msgCoverReceived] }, false⟩ := by
  simp [handlePhoto, hchat, hcap, htitle, hph, hfid]

theorem handlePhoto_stores_document (env : Env) (st : Store) (msg : Message)
    (text : Str) (d : TgDocument)
    (hchat : msg.chatId = env.allowedChatId)
    (hcap : msg.caption = some text)
    (htitle : containsSub "título".data (pyLowerL text) = true)
    (hph : msg.photo = [])
    (hdoc : msg.document = some d)
    (hmime : isPrefixOfL "image".data d.mimeType = true)
    (hfid : d.fileId ≠ []) :
    handlePhoto env st msg =
      ⟨dictSet st msg.chatId ⟨d.fileId, parse_metadata text, env.now⟩,
        { replies := [msgCoverReceived] }, false⟩ := by
  simp [handlePhoto, hchat, hcap, htitle, hph, hdoc, hmime, hfid]

theorem handlePhoto_catalogWrites (env : Env) (st : Store) (msg : Message) :
    (handlePhoto env st msg).fx.catalogWrites = [] := by
  simp only [handlePhoto]
  repeat' split
  all_goals rfl

theorem handleVideo_writes_complete (env : Env) (st : Store) (msg : Message) :
    ∀ pr ∈ (handleVideo env st msg).fx.catalogWrites,
      pr.2.posterUrl ≠ [] ∧ pr.2.videoUrl ≠ [] := by
  intro pr hpr
  simp only [handleVideo] at hpr
  repeat' split at hpr
  all_goals simp [noFx] at hpr
  subst hpr
  exact ⟨buildDownloadUrl_ne_nil _ _, buildDownloadUrl_ne_nil _ _⟩

theorem handleVideo_no_write_on_upload_fail (env : Env) (st : Store) (msg : Message)
    (h : env.posterOk = false ∨ env.videoOk = false) :
    (handleVideo env st msg).fx.catalogWrites = [] := by
  simp only [handleVideo]
  repeat' split
  all_goals first | rfl | simp_all
theorem handleVideo_no_pending (env : Env) (st : Store) (msg : Message)
    (hchat : msg.chatId = env.allowedChatId)
    (hpend : dictGet st msg.chatId = none) :
    handleVideo env st msg = ⟨st, { replies := [msgOrdem] }, false⟩ := by
  obtain ⟨mc, mcap, mph, mdoc, mvid⟩ := msg
  simp only at hchat hpend
  subst hchat
  simp [handleVideo, hpend]

theorem handleVideo_pending_no_ordem (env : Env) (st : Store) (msg : Message)
    (p : PendingEntry)
    (hchat : msg.chatId = env.allowedChatId)
    (hpend : dictGet st msg.chatId = some p) :
    msgOrdem ∉ (handleVideo env st msg).fx.replies := by
  obtain ⟨mc, mcap, mph, mdoc, mvid⟩ := msg
  simp only at hchat hpend
  subst hchat
  have n1 : msgOrdem ≠ msgNotVideo := by decide
  have n2 : msgOrdem ≠ msgSaving := by decide
  have n3 : msgOrdem ≠ msgPosterFail := by decide
  have n4 : msgOrdem ≠ msgVideoFail := by decide
  have n5 : msgOrdem ≠ msgSuccess := by decide
  simp only [handleVideo, hpend]
  repeat' split
  all_goals simp_all

theorem handleVideo_valid_head_saving (env : Env) (st : Store) (msg : Message)
    (p : PendingEntry) (f : TgFile)
    (hchat : msg.chatId = env.allowedChatId)
    (hpend : dictGet st msg.chatId = some p)
    (hvid : msg.video = some f)
    (hdoc : msg.document = none) :
    ((handleVideo env st msg).fx.replies).head? = some msgSaving := by
  obtain ⟨mc, mcap, mph, mdoc, mvid⟩ := msg
  simp only at hchat hpend hvid hdoc
  subst hchat
  subst hvid
  subst hdoc
  cases hp : env.posterOk <;> cases hv : env.videoOk <;> cases hc : env.catalogOk <;>
    simp [handleVideo, hpend, hp, hv, hc]

/- ===== Claim theorems ===== -/

theorem pyOr_ne_nil (a : Option Str) (d : Str) (hd : d ≠ []) : pyOr a d ≠ [] := by
  cases a with
  | none => exact hd
  | some s =>
    by_cases hs : s = [] <;> simp [pyOr, hs, hd]

/-- C4 (counterexample): parsing the Scenario A caption does not produce
year "2021" — the year field of parse_metadata is keyed to the label
"Lançamento", and the caption's "Ano:" line is not recognized, so the
year comes out absent. -/
theorem c4_year_counterexample :
    (parse_metadata scenarioACaption).year ≠ some "2021".data := by decide

/-- C4 (amended): parsing the Scenario A caption
"Título: Dune\nAno: 2021\nGêneros: Ficção\nSinopse: Um herdeiro..." yields
title "Dune", genres "Ficção" and synopsis "Um herdeiro..." as claimed, but
the year is none rather than "2021" (and director and audio are none). -/
theorem c4_scenarioA_parse :
    parse_metadata scenarioACaption =
      ⟨"Dune".data, some "Um herdeiro...".data, none, none, none,
        some "Ficção".data⟩ := by decide

/-- C5 (counterexample): the synopsis label match is case-sensitive, not
case-insensitive: the input "sinopse: abc" contains the label in lower
case (so the lowered label occurs in the lowered input), yet the parsed
synopsis is none instead of the claimed trimmed remainder "abc". -/
theorem c5_case_counterexample :
    containsSub (pyLowerL "Sinopse:".data) (pyLowerL "sinopse: abc".data) = true ∧
    (parse_metadata "sinopse: abc".data).synopsis = none := by decide

/-- C5 (amended): for every input containing a case-SENSITIVE occurrence of
"Sinopse:", the parsed synopsis equals the whole remainder of the input
after the first such occurrence, stripped of surrounding whitespace; the
remainder runs to the end of the input, so the synopsis is not restricted
to a single line. -/
theorem c5_synopsis_remainder (t : Str)
    (h : containsSub "Sinopse:".data t = true) :
    ∃ pre, t = pre ++ "Sinopse:".data ++ afterFirst "Sinopse:".data t ∧
      (∀ a b, t = a ++ "Sinopse:".data ++ b → pre.length ≤ a.length) ∧
      (parse_metadata t).synopsis =
        some (pyStrip (afterFirst "Sinopse:".data t)) := by
  obtain ⟨pre, heq, hmin⟩ := afterFirst_spec "Sinopse:".data t h
  exact ⟨pre, heq, hmin, by simp [parse_metadata, h]⟩

/-- Witness for C5's theorem at a concrete multi-line input. -/
theorem c5_synopsis_remainder_witness :
    containsSub "Sinopse:".data "Título: A\nSinopse: x\ny".data = true ∧
    (∃ pre, "Título: A\nSinopse: x\ny".data =
        pre ++ "Sinopse:".data ++ afterFirst "Sinopse:".data "Título: A\nSinopse: x\ny".data ∧
      (∀ a b, "Título: A\nSinopse: x\ny".data = a ++ "Sinopse:".data ++ b →
        pre.length ≤ a.length) ∧
      (parse_metadata "Título: A\nSinopse: x\ny".data).synopsis =
        some (pyStrip (afterFirst "Sinopse:".data "Título: A\nSinopse: x\ny".data))) :=
  ⟨by decide, c5_synopsis_remainder "Título: A\nSinopse: x\ny".data (by decide)⟩

/-- C6: parse_metadata is total (the embedding is a total function of the
input text), the title is always non-empty (falling back to "Sem título"
when the title lookup yields nothing or an empty value), and each other
field is none when its label does not occur in the input (labels are
matched case-insensitively per line; the synopsis label "Sinopse:" is
matched case-sensitively over the whole input). -/
theorem c6_total_title_nonempty_absent_none (text : Str) :
    (parse_metadata text).title ≠ [] ∧
    (containsSub (pyLowerL "Diretor".data) (pyLowerL text) = false →
      (parse_metadata text).director = none) ∧
    (containsSub (pyLowerL "Áudio".data) (pyLowerL text) = false →
      (parse_metadata text).audio = none) ∧
    (containsSub (pyLowerL "Lançamento".data) (pyLowerL text) = false →
      (parse_metadata text).year = none) ∧
    (containsSub (pyLowerL "Gêneros".data) (pyLowerL text) = false →
      (parse_metadata text).genres = none) ∧
    (containsSub "Sinopse:".data text = false →
      (parse_metadata text).synopsis = none) := by
  refine ⟨pyOr_ne_nil _ _ (by decide),
    fun h => getField_eq_none _ _ h,
    fun h => getField_eq_none _ _ h,
    fun h => getField_eq_none _ _ h,
    fun h => getField_eq_none _ _ h,
    fun h => ?_⟩
  simp [parse_metadata, h]

/-- Witness for C6 at a concrete input with no labels at all. -/
theorem c6_witness :
    (parse_metadata "abc".data).title ≠ [] ∧
    (parse_metadata "abc".data).director = none ∧
    (parse_metadata "abc".data).audio = none ∧
    (parse_metadata "abc".data).year = none ∧
    (parse_metadata "abc".data).genres = none ∧
    (parse_metadata "abc".data).synopsis = none := by
  have h := c6_total_title_nonempty_absent_none "abc".data
  exact ⟨h.1, h.2.1 (by decide), h.2.2.1 (by decide), h.2.2.2.1 (by decide),
    h.2.2.2.2.1 (by decide), h.2.2.2.2.2 (by decide)⟩

/-- C1 (counterexample): with a pending submission for chat 7 and a valid
video, when the uploads succeed but the catalog write fails, the exception
escapes the handler: the pending submission is NOT removed from the store
and no failure reply is sent (only the progress reply), contradicting the
claim that any failure after ReadyForUpload always removes the submission
and reports the failure. -/
theorem c1_catalog_failure_counterexample :
    dictGet (handleVideo envCatalogFail storeOne videoMsg).store 7 =
      some sampleEntry ∧
    (handleVideo envCatalogFail storeOne videoMsg).fx.replies = [msgSaving] ∧
    (handleVideo envCatalogFail storeOne videoMsg).raised = true := by decide

/-- C1 (amended): on a poster-phase or video-phase failure the pending
submission is removed and exactly one failure reply is sent (after the
progress reply); but on a catalog-write failure the exception escapes the
handler uncaught, the submission stays in the store, and no failure reply
is sent. -/
theorem c1_failure_cleanup (env : Env) (st : Store) (msg : Message)
    (p : PendingEntry) (f : TgFile)
    (hchat : msg.chatId = env.allowedChatId)
    (hpend : dictGet st msg.chatId = some p)
    (hvid : msg.video = some f)
    (hdoc : msg.document = none) :
    (env.posterOk = false →
      handleVideo env st msg =
        ⟨dictErase st msg.chatId,
          { replies := [msgSaving, msgPosterFail] }, false⟩) ∧
    (env.posterOk = true → env.videoOk = false →
      handleVideo env st msg =
        ⟨dictErase st msg.chatId,
          { replies := [msgSaving, msgVideoFail],
            blobUploads :=
              ["movies/".data ++ natToStr env.freshId ++ "/poster.jpg".data] },
          false⟩) ∧
    (env.posterOk = true → env.videoOk = true → env.catalogOk = false →
      (handleVideo env st msg).store = st ∧
      (handleVideo env st msg).fx.replies = [msgSaving] ∧
      (handleVideo env st msg).fx.catalogWrites = [] ∧
      (handleVideo env st msg).raised = true) := by
  obtain ⟨mc, mcap, mph, mdoc, mvid⟩ := msg
  simp only at hchat hpend hvid hdoc
  subst hchat
  subst hvid
  subst hdoc
  refine ⟨fun hp => ?_, fun hp hv => ?_, fun hp hv hc => ?_⟩
  · simp [handleVideo, hpend, hp]
  · simp [handleVideo, hpend, hp, hv]
  · simp [handleVideo, hpend, hp, hv, hc]

/-- Witness for C1's theorem: a concrete poster-phase failure removes the
entry and sends the poster failure reply. -/
theorem c1_failure_cleanup_witness :
    handleVideo envPosterFail storeOne videoMsg =
      ⟨dictErase storeOne 7, { replies := [msgSaving, msgPosterFail] }, false⟩ :=
  (c1_failure_cleanup envPosterFail storeOne videoMsg sampleEntry
    ⟨"vid".data, none⟩ rfl rfl rfl rfl).1 rfl

/-- C2: over every dispatched event, every catalog record ever written has
both the cover address and the video address populated (they are
firebasestorage download URLs, so non-empty), and if the poster or the
video phase fails, no catalog record at all is written for that run. -/
theorem c2_no_partial_record (env : Env) (st : Store) (msg : Message) :
    (∀ pr ∈ (processUpdate env st msg).fx.catalogWrites,
      pr.2.posterUrl ≠ [] ∧ pr.2.videoUrl ≠ []) ∧
    ((env.posterOk = false ∨ env.videoOk = false) →
      (processUpdate env st msg).fx.catalogWrites = []) := by
  constructor
  · intro pr hpr
    unfold processUpdate at hpr
    split at hpr
    · rw [handlePhoto_catalogWrites] at hpr
      exact absurd hpr (List.not_mem_nil _)
    · split at hpr
      · exact handleVideo_writes_complete env st msg pr hpr
      · exact absurd hpr (List.not_mem_nil _)
  · intro h
    unfold processUpdate
    split
    · exact handlePhoto_catalogWrites env st msg
    · split
      · exact handleVideo_no_write_on_upload_fail env st msg h
      · rfl

/-- Witness for C2: a concrete poster-phase failure writes nothing. -/
theorem c2_no_partial_record_witness :
    (processUpdate envPosterFail storeOne videoMsg).fx.catalogWrites = [] :=
  (c2_no_partial_record envPosterFail storeOne videoMsg).2 (Or.inl rfl)

/-- A captioned message with no photo and no document is consumed by the
caption handler, which returns with no effects before inspecting the
caption; the video handler is never reached. -/
theorem captioned_no_visual_dropped (env : Env) (st : Store) (msg : Message)
    (c : Str)
    (hcap : msg.caption = some c)
    (hph : msg.photo = [])
    (hdoc : msg.document = none) :
    processUpdate env st msg = ⟨st, noFx, false⟩ := by
  obtain ⟨mc, mcap, mph, mdoc, mvid⟩ := msg
  simp only at hcap hph hdoc
  subst hcap
  subst hph
  subst hdoc
  by_cases hcc : mc = env.allowedChatId <;>
    simp [processUpdate, filterCaption, handlePhoto, hcc]

/-- C9: a captioned video message is consumed by the caption handler
(registered first, matching any captioned message), which returns before
replying because the message has no photo and no image document; the
store is untouched, nothing is uploaded or written, no reply is sent, and
the video handler never runs. -/
theorem c9_captioned_video_dropped (env : Env) (st : Store) (msg : Message)
    (c : Str) (f : TgFile)
    (hcap : msg.caption = some c)
    (hvid : msg.video = some f)
    (hph : msg.photo = [])
    (hdoc : msg.document = none) :
    processUpdate env st msg = ⟨st, noFx, false⟩ :=
  captioned_no_visual_dropped env st msg c hcap hph hdoc

/-- Witness for C9 at a concrete captioned video: the store (holding one
pending entry) is unchanged and there are no effects. -/
theorem c9_captioned_video_dropped_witness :
    processUpdate envAllOk storeOne captionedVideoMsg = ⟨storeOne, noFx, false⟩ :=
  c9_captioned_video_dropped envAllOk storeOne captionedVideoMsg
    "qualquer".data ⟨"vid".data, none⟩ rfl rfl rfl rfl

/-- C3 (counterexample): after a cover event on an empty store, the next
artifact the flow accepts is the VIDEO, not a metadata text: sending a
valid video immediately after the cover is not rejected with any
order-violation reply and completes the pipeline with a catalog write, so
the created submission was not awaiting metadata. -/
theorem c3_awaiting_metadata_counterexample :
    (processUpdate envAllOk (processUpdate envAllOk [] coverMsg).store
        videoMsg).fx.catalogWrites.length = 1 ∧
    msgOrdem ∉ (processUpdate envAllOk (processUpdate envAllOk [] coverMsg).store
        videoMsg).fx.replies := by decide

/-- C3 (amended): a cover event in this module necessarily carries its
metadata in the caption (an uncaptioned image is never routed to the
handler, and a caption without the title label is ignored); on an empty
store it creates a submission that already holds the parsed metadata and
awaits the video — never a metadata-text stage: any subsequent valid video
event for that conversation is processed rather than order-rejected. -/
theorem c3_cover_creates_video_awaiting (env : Env) (st : Store) (msg : Message)
    (text : Str) (p : TgFile)
    (hchat : msg.chatId = env.allowedChatId)
    (hnone : dictGet st msg.chatId = none)
    (hcap : msg.caption = some text)
    (htitle : containsSub "título".data (pyLowerL text) = true)
    (hph : msg.photo.getLast? = some p)
    (hfid : p.fileId ≠ []) :
    processUpdate env st msg =
      ⟨dictSet st msg.chatId ⟨p.fileId, parse_metadata text, env.now⟩,
        { replies := [msgCoverReceived] }, false⟩ ∧
    ∀ env2 msg2 f2, msg2.chatId = msg.chatId →
      msg2.chatId = env2.allowedChatId →
      msg2.caption = none → msg2.video = some f2 →
      msgOrdem ∉
        (processUpdate env2 (processUpdate env st msg).store msg2).fx.replies := by
  have h1 : processUpdate env st msg =
      ⟨dictSet st msg.chatId ⟨p.fileId, parse_metadata text, env.now⟩,
        { replies := [msgCoverReceived] }, false⟩ := by
    have hpu : processUpdate env st msg = handlePhoto env st msg := by
      simp [processUpdate, filterCaption, hcap]
    rw [hpu]
    exact handlePhoto_stores_photo env st msg text p hchat hcap htitle hph hfid
  refine ⟨h1, ?_⟩
  intro env2 msg2 f2 hkey hchat2 hcap2 hvid2
  have hpu2 : processUpdate env2 (processUpdate env st msg).store msg2 =
      handleVideo env2 (processUpdate env st msg).store msg2 := by
    simp [processUpdate, filterCaption, filterVideo, hcap2, hvid2]
  rw [hpu2]
  apply handleVideo_pending_no_ordem env2 _ msg2
    ⟨p.fileId, parse_metadata text, env.now⟩ hchat2
  rw [h1]
  simp only [hkey]
  exact dictGet_dictSet_self st msg.chatId _

/-- Witness for C3's theorem: the concrete cover event creates the entry
for chat 7 with the parsed caption metadata. -/
theorem c3_cover_creates_video_awaiting_witness :
    processUpdate envAllOk [] coverMsg =
      ⟨dictSet [] 7 ⟨"p1".data, parse_metadata coverCaption, 0⟩,
        { replies := [msgCoverReceived] }, false⟩ :=
  (c3_cover_creates_video_awaiting envAllOk [] coverMsg coverCaption
    ⟨"p1".data, none⟩ rfl rfl rfl (by decide) rfl (by decide)).1

/-- C7 (counterexample): a video that carries a caption, sent with no
pending submission, is consumed silently by the caption handler: no
rejection reply is sent at all (and no store entry is created), so the
claim that every video event without a submission is rejected with a
"send cover first" reply fails. -/
theorem c7_captioned_video_counterexample :
    (processUpdate envAllOk [] captionedVideoMsg).fx.replies = [] ∧
    (processUpdate envAllOk [] captionedVideoMsg).store = [] := by decide

/-- C7 (amended): with no pending submission, an UNCAPTIONED video event is
rejected with the wrong-order reply (which tells the user to send the
cover with its text first) and no store entry is created; a captioned
video event is silently dropped by the caption handler, also creating no
store entry. -/
theorem c7_video_without_submission (env : Env) (st : Store) (msg : Message)
    (f : TgFile)
    (hchat : msg.chatId = env.allowedChatId)
    (hnone : dictGet st msg.chatId = none)
    (hvid : msg.video = some f)
    (hdoc : msg.document = none) :
    (msg.caption = none →
      processUpdate env st msg = ⟨st, { replies := [msgOrdem] }, false⟩) ∧
    (∀ c, msg.caption = some c → msg.photo = [] →
      processUpdate env st msg = ⟨st, noFx, false⟩) := by
  constructor
  · intro hcap
    have hpu : processUpdate env st msg = handleVideo env st msg := by
      simp [processUpdate, filterCaption, filterVideo, hcap, hvid]
    rw [hpu]
    exact handleVideo_no_pending env st msg hchat hnone
  · intro c hcap hph
    exact captioned_no_visual_dropped env st msg c hcap hph hdoc

/-- Witness for C7's theorem: the concrete uncaptioned video with an empty
store is rejected with the wrong-order reply and the store stays empty. -/
theorem c7_video_without_submission_witness :
    processUpdate envAllOk [] videoMsg =
      ⟨[], { replies := [msgOrdem] }, false⟩ :=
  (c7_video_without_submission envAllOk [] videoMsg
    ⟨"vid".data, none⟩ rfl rfl rfl rfl).1 rfl

/-- C8 (counterexample): a submission created at time 0 is still in the
store when a video event arrives 100000 s later (past the claimed 24 h
TTL); the event is not treated as "no submission" — it is processed to a
successful publish — because the module has no expiry sweep at all and
never reads created_at. -/
theorem c8_no_expiry_counterexample :
    dictGet (processUpdate envAllOk [] coverMsg).store 7 =
      some ⟨"p1".data, parse_metadata coverCaption, 0⟩ ∧
    (processUpdate envLate (processUpdate envAllOk [] coverMsg).store
        videoMsg).fx.replies = [msgSaving, msgSuccess] ∧
    (processUpdate envLate (processUpdate envAllOk [] coverMsg).store
        videoMsg).store = [] := by decide

/-- C8 (amended): the store has no TTL eviction: created_at is recorded but
never consulted, so even when the default 24 h TTL has elapsed since the
entry's creation, the entry is still present and a subsequent valid video
event for that conversation enters the upload pipeline (its first reply is
the progress reply) instead of being rejected as "no submission". -/
theorem c8_no_ttl_expiry (env : Env) (st : Store) (msg : Message)
    (p : PendingEntry) (f : TgFile)
    (hchat : msg.chatId = env.allowedChatId)
    (hpend : dictGet st msg.chatId = some p)
    (hvid : msg.video = some f)
    (hdoc : msg.document = none)
    (httl : p.createdAt + 86400 ≤ env.now) :
    dictGet st msg.chatId ≠ none ∧
    msgOrdem ∉ (handleVideo env st msg).fx.replies ∧
    ((handleVideo env st msg).fx.replies).head? = some msgSaving := by
  refine ⟨by rw [hpend]; simp, ?_, ?_⟩
  · exact handleVideo_pending_no_ordem env st msg p hchat hpend
  · exact handleVideo_valid_head_saving env st msg p f hchat hpend hvid hdoc

/-- Witness for C8's theorem at a concrete late video event. -/
theorem c8_no_ttl_expiry_witness :
    dictGet storeOne 7 ≠ none ∧
    msgOrdem ∉ (handleVideo envLate storeOne videoMsg).fx.replies ∧
    ((handleVideo envLate storeOne videoMsg).fx.replies).head? =
      some msgSaving :=
  c8_no_ttl_expiry envLate storeOne videoMsg sampleEntry
    ⟨"vid".data, none⟩ rfl rfl rfl rfl (by decide)

/-- C10: for an allowed conversation, a captioned image message (a photo,
or an image-mime document when no photo is present) whose caption contains
the title label unconditionally overwrites whatever entry the store held
for that conversation with a fresh entry — the image's file id, the
freshly parsed caption metadata, and the current time — replies with the
confirmation, and leaves exactly one entry under that conversation key
while every other key is untouched. -/
theorem c10_cover_overwrites (env : Env) (st : Store) (msg : Message)
    (text : Str)
    (hchat : msg.chatId = env.allowedChatId)
    (hcap : msg.caption = some text)
    (htitle : containsSub "título".data (pyLowerL text) = true)
    (hsrc : (∃ p, msg.photo.getLast? = some p ∧ p.fileId ≠ []) ∨
      (msg.photo = [] ∧ ∃ d, msg.document = some d ∧
        isPrefixOfL "image".data d.mimeType = true ∧ d.fileId ≠ [])) :
    ∃ fid, fid ≠ [] ∧
      processUpdate env st msg =
        ⟨dictSet st msg.chatId ⟨fid, parse_metadata text, env.now⟩,
          { replies := [msgCoverReceived] }, false⟩ ∧
      countKey (dictSet st msg.chatId ⟨fid, parse_metadata text, env.now⟩)
        msg.chatId = 1 ∧
      ∀ k, k ≠ msg.chatId →
        dictGet (dictSet st msg.chatId ⟨fid, parse_metadata text, env.now⟩) k =
          dictGet st k := by
  have hpu : processUpdate env st msg = handlePhoto env st msg := by
    simp [processUpdate, filterCaption, hcap]
  rcases hsrc with ⟨p, hph, hfid⟩ | ⟨hph, d, hdoc, hmime, hfid⟩
  · refine ⟨p.fileId, hfid, ?_, countKey_dictSet _ _ _,
      fun k hk => dictGet_dictSet_ne _ _ _ _ hk⟩
    rw [hpu]
    exact handlePhoto_stores_photo env st msg text p hchat hcap htitle hph hfid
  · refine ⟨d.fileId, hfid, ?_, countKey_dictSet _ _ _,
      fun k hk => dictGet_dictSet_ne _ _ _ _ hk⟩
    rw [hpu]
    exact handlePhoto_stores_document env st msg text d hchat hcap htitle hph
      hdoc hmime hfid

/-- Witness for C10: the concrete cover event overwrites the existing
pending entry for chat 7 and leaves exactly one entry under that key. -/
theorem c10_cover_overwrites_witness :
    ∃ fid, fid ≠ [] ∧
      processUpdate envAllOk storeOne coverMsg =
        ⟨dictSet storeOne 7 ⟨fid, parse_metadata coverCaption, 0⟩,
          { replies := [msgCoverReceived] }, false⟩ ∧
      countKey (dictSet storeOne 7 ⟨fid, parse_metadata coverCaption, 0⟩) 7 = 1 ∧
      ∀ k, k ≠ (7 : Int) →
        dictGet (dictSet storeOne 7 ⟨fid, parse_metadata coverCaption, 0⟩) k =
          dictGet storeOne k :=
  c10_cover_overwrites envAllOk storeOne coverMsg coverCaption rfl rfl
    (by decide) (Or.inl ⟨⟨"p1".data, none⟩, rfl, by decide⟩)
